import Mathlib

/-!
Verification of the transaction-to-state-update parser of the photon
compressed-account indexer.  The parser logic is translated from
`src/ingester/parser/mod.rs`.  The data types, the borsh codec layer, the
error type and the `StateUpdate` merger live in repository files that are
not available here (`indexer_events.rs`, `state_update.rs`, `error.rs`,
`typedefs/block_info.rs`); those are modelled from the specification, as
marked in their doc comments.

Machine integers are modelled as `Nat`; byte sequences as `List Nat`.
A Rust panic (out-of-bounds slice index) is modelled explicitly as the
`panicked` outcome, distinct from the `Result::Err` path.
-/

namespace Photon

/-- Modelled from the spec: a 32-byte public key, as its byte sequence. -/
abbrev Pubkey := List Nat

/-- Modelled from the spec: a 32-byte hash, as its byte sequence. -/
abbrev Hash32 := List Nat

/-- Modelled from the spec: a 64-byte transaction signature. -/
abbrev Signature := List Nat

/-- Modelled from the spec: one decoded instruction — program id, ordered
account list, opaque data payload (`typedefs/block_info.rs` is not in the
provided sources). -/
structure Instruction where
  program_id : Pubkey
  accounts : List Pubkey
  data : List Nat
deriving DecidableEq, Repr

/-- Modelled from the spec: an outer instruction together with its inner
instructions, in order. -/
structure InstructionGroup where
  outer_instruction : Instruction
  inner_instructions : List Instruction
deriving DecidableEq, Repr

/-- Modelled from the spec: a decoded transaction — signature plus ordered
instruction groups. -/
structure TransactionInfo where
  signature : Signature
  instruction_groups : List InstructionGroup
deriving DecidableEq, Repr

/-- Modelled from the spec: `PathNode` = 32-byte node hash plus a 64-bit
tree-position index (`indexer_events.rs` is not in the provided sources). -/
structure PathNode where
  node : Hash32
  index : Nat
deriving DecidableEq, Repr

/-- Modelled from the spec: `ChangelogEventV1` = tree id, list of lists of
path nodes, sequence number, and an index that is decoded but unused. -/
structure ChangelogEventV1 where
  id : Hash32
  paths : List (List PathNode)
  seq : Nat
  index : Nat
deriving DecidableEq, Repr

/-- Modelled from the spec: the changelog event union.  The match in
`extract_path_updates` (mod.rs) is exhaustive with the single arm
`ChangelogEvent::V1`, so the enum has exactly the v1 variant. -/
inductive ChangelogEvent where
  | V1 (v : ChangelogEventV1)
deriving DecidableEq, Repr

/-- Modelled from the spec: an ordered list of changelog events. -/
structure Changelogs where
  changelogs : List ChangelogEvent
deriving DecidableEq, Repr

/-- Modelled from the spec: the spec leaves the compressed-account payload
opaque; it is modelled as its byte sequence. -/
abbrev CompressedAccount := List Nat

/-- Modelled from the spec: a compressed account plus its Merkle context;
only `compressed_account` and `merkle_tree_pubkey_index` are used by the
parser, the additional context fields are ignored. -/
structure CompressedAccountWithMerkleContext where
  compressed_account : CompressedAccount
  merkle_tree_pubkey_index : Nat
deriving DecidableEq, Repr

/-- Modelled from the spec: `PublicTransactionEvent` — the five fields the
parser destructures; the ignored tail fields are omitted. -/
structure PublicTransactionEvent where
  input_compressed_account_hashes : List Hash32
  output_compressed_account_hashes : List Hash32
  input_compressed_accounts : List CompressedAccountWithMerkleContext
  output_compressed_accounts : List CompressedAccount
  pubkey_array : List Pubkey
deriving DecidableEq, Repr

/-- Modelled from the spec: an account enriched with tree identity,
optional sequence number, slot and hash (`state_update.rs` is not in the
provided sources). -/
structure EnrichedAccount where
  account : CompressedAccount
  tree : Pubkey
  seq : Option Nat
  slot : Nat
  hash : Hash32
deriving DecidableEq, Repr

/-- Modelled from the spec: a path node enriched with slot, tree, sequence,
zero-based level and total tree depth. -/
structure EnrichedPathNode where
  node : PathNode
  slot : Nat
  tree : Hash32
  seq : Nat
  level : Nat
  tree_depth : Nat
deriving DecidableEq, Repr

/-- Modelled from the spec: one path update extracted from a v1 changelog
event: tree id, the path, and the event's sequence number. -/
structure PathUpdate where
  tree : Hash32
  path : List PathNode
  seq : Nat
deriving DecidableEq, Repr

/-- Modelled from the spec: the parser's output record. -/
structure StateUpdate where
  in_accounts : List EnrichedAccount
  out_accounts : List EnrichedAccount
  path_nodes : List EnrichedPathNode
deriving DecidableEq, Repr

/-- Modelled from the spec: the empty `StateUpdate` (`StateUpdate::new`). -/
def StateUpdate.new : StateUpdate :=
  { in_accounts := [], out_accounts := [], path_nodes := [] }

/-- Modelled from the spec: `StateUpdate::merge` concatenates
`in_accounts`, `out_accounts` and `path_nodes`, first argument first. -/
def StateUpdate.merge (a b : StateUpdate) : StateUpdate :=
  { in_accounts := a.in_accounts ++ b.in_accounts
    out_accounts := a.out_accounts ++ b.out_accounts
    path_nodes := a.path_nodes ++ b.path_nodes }

/-- Modelled from the spec: `StateUpdate::merge_updates` is the left fold
of `merge` starting from the empty update. -/
def StateUpdate.merge_updates (l : List StateUpdate) : StateUpdate :=
  l.foldl StateUpdate.merge StateUpdate.new

/-- Modelled from the spec: the indexer error type; the parser surfaces
`ParserError` for decode failures and `MalformedEvent` for structural
mismatches (`error.rs` is not in the provided sources). -/
inductive IngesterError where
  | ParserError (msg : String)
  | MalformedEvent (msg : String)
deriving DecidableEq, Repr

/-- Outcome of running a fallible Rust function that may also panic: Rust's
`Result` extended with a `panicked` case for out-of-bounds slice indexing. -/
inductive ParseOutcome (α : Type) where
  | ok (value : α)
  | err (e : IngesterError)
  | panicked (msg : String)
deriving DecidableEq, Repr

/-- Apply a function to the success value of a `ParseOutcome`. -/
def ParseOutcome.map {α β : Type} (f : α → β) : ParseOutcome α → ParseOutcome β
  | .ok v => .ok (f v)
  | .err e => .err e
  | .panicked m => .panicked m

/-- Sequence two fallible computations; errors and panics propagate, as the
`?` operator does in the source. -/
def ParseOutcome.bind {α β : Type} :
    ParseOutcome α → (α → ParseOutcome β) → ParseOutcome β
  | .ok v, f => f v
  | .err e, _ => .err e
  | .panicked m, _ => .panicked m

/-- Byte value of `ACCOUNT_COMPRESSION_PROGRAM_ID =
5QPEJ5zDsVou9FQS3KCauKswM3VwBEBu4dpL9xTqkWwN` (mod.rs). -/
def ACCOUNT_COMPRESSION_PROGRAM_ID : Pubkey :=
  [65, 108, 61, 176, 52, 117, 234, 133, 198, 175, 67, 171, 12, 47, 143, 190,
   40, 85, 133, 139, 248, 63, 224, 103, 49, 223, 64, 138, 92, 25, 160, 29]

/-- Byte value of `NOOP_PROGRAM_ID =
noopb9bkMVfRPU8AsbpTUg8AQkHtKwMYZiFUjNRtMmV` (mod.rs). -/
def NOOP_PROGRAM_ID : Pubkey :=
  [11, 188, 15, 192, 187, 71, 202, 47, 116, 196, 17, 46, 148, 171, 19, 207,
   163, 198, 52, 229, 220, 23, 234, 203, 3, 205, 26, 35, 205, 126, 120, 124]

/-- Base-58 alphabet used by Solana's signature rendering. -/
def b58Alphabet : List Char :=
  "123456789ABCDEFGHJKLMNPQRSTUVWXYZabcdefghijkmnopqrstuvwxyz".toList

/-- Character of one base-58 digit. -/
def b58Char (d : Nat) : Char := b58Alphabet.getD d '1'

/-- Big-endian byte sequence read as a natural number. -/
def bytesToNat (bs : List Nat) : Nat := bs.foldl (fun acc b => acc * 256 + b) 0

/-- Little-endian base-58 digits of a natural number (fuel-bounded). -/
def b58DigitsAux : Nat → Nat → List Nat
  | 0, _ => []
  | _, 0 => []
  | fuel + 1, n + 1 => (n + 1) % 58 :: b58DigitsAux fuel ((n + 1) / 58)

/-- Base-58 rendering of a byte sequence, as used by the `Display`
implementation of Solana signatures: one alphabet-first character per
leading zero byte, then the base-58 digits of the value. -/
def base58Encode (bs : List Nat) : String :=
  let zeros := (bs.takeWhile (fun b => b = 0)).length
  let digits := (b58DigitsAux (bytesToNat bs) (bytesToNat bs)).reverse
  String.mk (List.replicate zeros '1' ++ digits.map b58Char)

/-- Rendering of a transaction signature in error messages (the `Display`
of `solana_sdk::signature::Signature` is the base-58 of its 64 bytes). -/
def signatureToString (s : Signature) : String := base58Encode s

/-- Message of the Rust panic raised by an out-of-bounds slice index. -/
def indexPanicMsg (len idx : Nat) : String :=
  "index out of bounds: the len is " ++ toString len ++
    " but the index is " ++ toString idx

/-- Message of the `MalformedEvent` raised when the output-account count
differs from the path-update count (mod.rs line 125). -/
def outputMismatchMsg (tx : Signature) : String :=
  "Number of path updates did not match the number of output accounts (txn: "
    ++ signatureToString tx ++ ")"

/-- Modelled from the spec: read one byte of the input; a missing byte is a
short read (`indexer_events.rs`, which derives the borsh codec, is not in
the provided sources; the codec follows the primitive rules of spec 4.1). -/
def readByte : List Nat → Except String (Nat × List Nat)
  | [] => .error "Unexpected length of input"
  | b :: rest => .ok (b, rest)

/-- Modelled from the spec: read exactly `n` bytes. -/
def readBytes : Nat → List Nat → Except String (List Nat × List Nat)
  | 0, input => .ok ([], input)
  | n + 1, input => do
    let (b, r) ← readByte input
    let (bs, r2) ← readBytes n r
    .ok (b :: bs, r2)

/-- Modelled from the spec: a fixed-size 32-bit little-endian integer. -/
def readU32 (input : List Nat) : Except String (Nat × List Nat) := do
  let (bs, r) ← readBytes 4 input
  .ok (bytesToNat bs.reverse, r)

/-- Modelled from the spec: a fixed-size 64-bit little-endian integer. -/
def readU64 (input : List Nat) : Except String (Nat × List Nat) := do
  let (bs, r) ← readBytes 8 input
  .ok (bytesToNat bs.reverse, r)

/-- Modelled from the spec: read `n` consecutive elements. -/
def readVec {α : Type} (readElem : List Nat → Except String (α × List Nat)) :
    Nat → List Nat → Except String (List α × List Nat)
  | 0, input => .ok ([], input)
  | n + 1, input => do
    let (x, r) ← readElem input
    let (xs, r2) ← readVec readElem n r
    .ok (x :: xs, r2)

/-- Modelled from the spec: a variable-length sequence is a 32-bit
little-endian count followed by that many elements. -/
def readSeq {α : Type} (readElem : List Nat → Except String (α × List Nat))
    (input : List Nat) : Except String (List α × List Nat) := do
  let (n, r) ← readU32 input
  readVec readElem n r

/-- Modelled from the spec: `PathNode` = 32-byte node hash then a u64 index. -/
def readPathNode (input : List Nat) : Except String (PathNode × List Nat) := do
  let (node, r) ← readBytes 32 input
  let (idx, r2) ← readU64 r
  .ok ({ node := node, index := idx }, r2)

/-- Modelled from the spec: `ChangelogEvent` is a 32-bit variant tag then
the variant body; tag 0 selects v1; any other tag is a decode error. -/
def readChangelogEvent (input : List Nat) :
    Except String (ChangelogEvent × List Nat) := do
  let (tag, r) ← readU32 input
  if tag = 0 then do
    let (id, r1) ← readBytes 32 r
    let (paths, r2) ← readSeq (readSeq readPathNode) r1
    let (seq, r3) ← readU64 r2
    let (index, r4) ← readU64 r3
    .ok (ChangelogEvent.V1 { id := id, paths := paths, seq := seq, index := index }, r4)
  else
    .error "Unexpected variant tag for ChangelogEvent"

/-- Modelled from the spec: `Changelogs` is a sequence of changelog events;
trailing unused bytes are not an error. -/
def deserializeChangelogs (data : List Nat) : Except String Changelogs :=
  match readSeq readChangelogEvent data with
  | .ok (evs, _) => .ok { changelogs := evs }
  | .error e => .error e

/-- Modelled from the spec: the spec leaves the compressed-account payload
opaque; it is modelled as a length-prefixed byte sequence. -/
def readCompressedAccount (input : List Nat) :
    Except String (CompressedAccount × List Nat) :=
  readSeq readByte input

/-- Modelled from the spec: a compressed account with its Merkle context —
the opaque payload followed by the `merkle_tree_pubkey_index` byte (the
ignored additional context is not modelled). -/
def readAccountWithContext (input : List Nat) :
    Except String (CompressedAccountWithMerkleContext × List Nat) := do
  let (ca, r) ← readCompressedAccount input
  let (idx, r2) ← readByte r
  .ok ({ compressed_account := ca, merkle_tree_pubkey_index := idx }, r2)

/-- Modelled from the spec: `PublicTransactionEvent` decodes its five used
fields in order; the tail fields are ignored and need not be consumed. -/
def deserializePublicTransactionEvent (data : List Nat) :
    Except String PublicTransactionEvent :=
  match (do
      let (inh, r1) ← readSeq (readBytes 32) data
      let (outh, r2) ← readSeq (readBytes 32) r1
      let (ins, r3) ← readSeq readAccountWithContext r2
      let (outs, r4) ← readSeq readCompressedAccount r3
      let (pks, _) ← readSeq (readBytes 32) r4
      (.ok (inh, outh, ins, outs, pks) :
        Except String (List Hash32 × List Hash32 ×
          List CompressedAccountWithMerkleContext ×
          List CompressedAccount × List Pubkey))) with
  | .ok (inh, outh, ins, outs, pks) =>
    .ok { input_compressed_account_hashes := inh
          output_compressed_account_hashes := outh
          input_compressed_accounts := ins
          output_compressed_accounts := outs
          pubkey_array := pks }
  | .error e => .error e

/-- Translation of `extract_path_updates` (mod.rs lines 166-187): flatten
every v1 changelog event's paths into `PathUpdate`s carrying the event's
tree id and sequence number. -/
def extract_path_updates (changelogs : Changelogs) : List PathUpdate :=
  changelogs.changelogs.flatMap fun cl =>
    match cl with
    | ChangelogEvent.V1 c =>
      c.paths.map fun p =>
        { tree := c.id
          path := p.map fun node => { node := node.node, index := node.index }
          seq := c.seq }

/-- Translation of the input-account loop of `parse_public_transaction_event`
(mod.rs lines 102-120): enrich each (account, hash) pair of the zip; the
slice index `pubkey_array[merkle_tree_pubkey_index]` panics when out of
range. -/
def enrichInputs (slot : Nat) (pubkey_array : List Pubkey) :
    List (CompressedAccountWithMerkleContext × Hash32) →
      ParseOutcome (List EnrichedAccount)
  | [] => .ok []
  | (account, hash) :: rest =>
    match pubkey_array[account.merkle_tree_pubkey_index]? with
    | none =>
      .panicked (indexPanicMsg pubkey_array.length account.merkle_tree_pubkey_index)
    | some tree =>
      (enrichInputs slot pubkey_array rest).map
        (fun tail =>
          { account := account.compressed_account
            tree := tree
            seq := none
            slot := slot
            hash := hash } :: tail)

/-- Translation of `parse_public_transaction_event` (mod.rs lines 85-164):
enrich inputs, extract path updates, check the output-count invariant,
enrich outputs positionally, and expand every path into per-level nodes. -/
def parse_public_transaction_event (tx : Signature) (slot : Nat)
    (transaction_event : PublicTransactionEvent) (changelogs : Changelogs) :
    ParseOutcome StateUpdate :=
  match enrichInputs slot transaction_event.pubkey_array
      (transaction_event.input_compressed_accounts.zip
        transaction_event.input_compressed_account_hashes) with
  | .err e => .err e
  | .panicked m => .panicked m
  | .ok ins =>
    let path_updates := extract_path_updates changelogs
    if transaction_event.output_compressed_accounts.length ≠ path_updates.length
    then
      .err (IngesterError.MalformedEvent (outputMismatchMsg tx))
    else
      let outs :=
        ((transaction_event.output_compressed_accounts.zip path_updates).zip
            transaction_event.output_compressed_account_hashes).map
          fun x =>
            { account := x.1.1
              tree := x.1.2.tree
              seq := some x.1.2.seq
              slot := slot
              hash := x.2 }
      let pns :=
        path_updates.flatMap fun p =>
          p.path.enum.map fun x =>
            { node := x.2
              slot := slot
              tree := p.tree
              seq := p.seq
              level := x.1
              tree_depth := p.path.length }
      .ok { in_accounts := ins, out_accounts := outs, path_nodes := pns }

/-- Trigger condition of the scanner (mod.rs lines 42-45): the current
instruction is the account-compression program, its account list contains
the noop program, and the next two instructions are the noop program. -/
def isTriggerTriple (a b c : Instruction) : Prop :=
  a.program_id = ACCOUNT_COMPRESSION_PROGRAM_ID ∧
    NOOP_PROGRAM_ID ∈ a.accounts ∧
    b.program_id = NOOP_PROGRAM_ID ∧
    c.program_id = NOOP_PROGRAM_ID

instance (a b c : Instruction) : Decidable (isTriggerTriple a b c) := by
  unfold isTriggerTriple; infer_instance

/-- Translation of the body of a matched trigger (mod.rs lines 54-76):
decode `inst[i+1].data` as `Changelogs` and `inst[i+2].data` as
`PublicTransactionEvent` — either decode failure is a `ParserError` — then
assemble the per-trigger state update. -/
def processTrigger (sig : Signature) (slot : Nat) (b c : Instruction) :
    ParseOutcome StateUpdate :=
  match deserializeChangelogs b.data with
  | .error e =>
    .err (IngesterError.ParserError ("Failed to deserialize Changelogs: " ++ e))
  | .ok changelogs =>
    match deserializePublicTransactionEvent c.data with
    | .error e =>
      .err (IngesterError.ParserError
        ("Failed to deserialize PublicTransactionEvent: " ++ e))
    | .ok public_transaction_event =>
      parse_public_transaction_event sig slot public_transaction_event changelogs

/-- Translation of the instruction loop of `parse_transaction` (mod.rs
lines 35-80) on the ordered instruction list of one group: positions with
fewer than three instructions remaining are skipped; at a matched trigger
the event is processed and scanning continues at the next position. -/
def scanInstructions (sig : Signature) (slot : Nat) :
    List Instruction → ParseOutcome (List StateUpdate)
  | a :: b :: c :: rest =>
    if isTriggerTriple a b c then
      (processTrigger sig slot b c).bind fun state_update =>
        (scanInstructions sig slot (b :: c :: rest)).map
          (fun l => state_update :: l)
    else
      scanInstructions sig slot (b :: c :: rest)
  | _ => .ok []

/-- Ordered instruction list of one group (mod.rs lines 31-33): the outer
instruction followed by the inner instructions. -/
def orderedInstructions (g : InstructionGroup) : List Instruction :=
  g.outer_instruction :: g.inner_instructions

/-- Per-trigger state updates of all instruction groups, in traversal
order (mod.rs lines 30-81). -/
def scanGroups (sig : Signature) (slot : Nat) :
    List InstructionGroup → ParseOutcome (List StateUpdate)
  | [] => .ok []
  | g :: rest =>
    (scanInstructions sig slot (orderedInstructions g)).bind fun l =>
      (scanGroups sig slot rest).map (fun l2 => l ++ l2)

/-- Translation of `parse_transaction` (mod.rs lines 26-83): collect the
per-trigger state updates of every instruction group and merge them. -/
def parse_transaction (tx : TransactionInfo) (slot : Nat) :
    ParseOutcome StateUpdate :=
  (scanGroups tx.signature slot tx.instruction_groups).map
    StateUpdate.merge_updates

/-- Placeholder instruction used as the default of total list indexing in
statements about scanner positions. -/
def dummyInstruction : Instruction :=
  { program_id := [], accounts := [], data := [] }

/-- Indexing a zip at a position where both component lists are defined. -/
theorem zip_getElem?_some {α β : Type} (xs : List α) (ys : List β) :
    ∀ (j : Nat) (a : α) (b : β), xs[j]? = some a → ys[j]? = some b →
      (xs.zip ys)[j]? = some (a, b) := by
  induction xs generalizing ys with
  | nil => intro j a b ha _; simp at ha
  | cons x xs ih =>
    intro j a b ha hb
    cases ys with
    | nil => simp at hb
    | cons y ys =>
      cases j with
      | zero =>
        simp only [List.getElem?_cons_zero, Option.some.injEq] at ha hb
        simp [ha, hb]
      | succ j =>
        simp only [List.getElem?_cons_succ] at ha hb
        simpa using ih ys j a b ha hb

/-- Indexing an append past the whole left part. -/
theorem getElem?_append_offset {α : Type} (l l' : List α) (n : Nat) :
    (l ++ l')[l.length + n]? = l'[n]? := by
  rw [List.getElem?_append_right (by omega)]
  congr 1
  omega

/-- Position of one element of one segment inside a flattened list. -/
theorem flatMap_getElem?_offset {α β : Type} (f : α → List β) :
    ∀ (l : List α) (t : Nat) (x : α), l[t]? = some x →
      ∀ (i : Nat) (y : β), (f x)[i]? = some y →
        (l.flatMap f)[((l.take t).map fun a => (f a).length).sum + i]? = some y := by
  intro l
  induction l with
  | nil => intro t x hx; simp at hx
  | cons a l ih =>
    intro t x hx i y hy
    cases t with
    | zero =>
      simp only [List.getElem?_cons_zero, Option.some.injEq] at hx
      subst hx
      have hi : i < (f a).length := (List.getElem?_eq_some.mp hy).1
      rw [List.take_zero, List.map_nil, List.sum_nil, Nat.zero_add,
        List.flatMap_cons, List.getElem?_append_left hi]
      exact hy
    | succ t =>
      simp only [List.getElem?_cons_succ] at hx
      rw [List.flatMap_cons, List.take_succ_cons, List.map_cons, List.sum_cons,
        Nat.add_assoc, getElem?_append_offset]
      exact ih t x hx i y hy

/-- Mapping an enriched view over an enumerated list, pointwise. -/
theorem enum_map_getElem? {α β : Type} (p : List α) (f : Nat × α → β)
    (i : Nat) (x : α) (h : p[i]? = some x) :
    (p.enum.map f)[i]? = some (f (i, x)) := by
  rw [List.getElem?_map, List.getElem?_enum, h]
  rfl

/-- Enriching the zipped input pairs succeeds exactly on valid tree indices
and then rebuilds each pair positionally with `seq` absent. -/
theorem enrichInputs_ok_getElem (slot : Nat) (pks : List Pubkey) :
    ∀ (pairs : List (CompressedAccountWithMerkleContext × Hash32))
      (l : List EnrichedAccount), enrichInputs slot pks pairs = .ok l →
      l.length = pairs.length ∧
        ∀ (j : Nat) (p : CompressedAccountWithMerkleContext × Hash32),
          pairs[j]? = some p →
          ∃ t, pks[p.1.merkle_tree_pubkey_index]? = some t ∧
            l[j]? = some { account := p.1.compressed_account, tree := t,
                           seq := none, slot := slot, hash := p.2 } := by
  intro pairs
  induction pairs with
  | nil =>
    intro l hl
    simp only [enrichInputs] at hl
    cases hl
    exact ⟨rfl, by intro j p hp; simp at hp⟩
  | cons p rest ih =>
    intro l hl
    simp only [enrichInputs] at hl
    cases ht : pks[p.1.merkle_tree_pubkey_index]? with
    | none => rw [ht] at hl; cases hl
    | some t =>
      rw [ht] at hl
      cases he : enrichInputs slot pks rest with
      | err e => rw [he] at hl; cases hl
      | panicked m => rw [he] at hl; cases hl
      | ok tail =>
        rw [he] at hl
        simp only [ParseOutcome.map, ParseOutcome.ok.injEq] at hl
        obtain ⟨hlen, hpoint⟩ := ih tail he
        subst hl
        refine ⟨by simp [hlen], ?_⟩
        intro j q hq
        cases j with
        | zero =>
          simp only [List.getElem?_cons_zero, Option.some.injEq] at hq
          subst hq
          exact ⟨t, ht, by simp⟩
        | succ j =>
          simp only [List.getElem?_cons_succ] at hq ⊢
          exact hpoint j q hq

/-- Enriching the zipped input pairs succeeds when every zipped account's
tree index is in range. -/
theorem enrichInputs_exists_ok (slot : Nat) (pks : List Pubkey) :
    ∀ (pairs : List (CompressedAccountWithMerkleContext × Hash32)),
      (∀ p ∈ pairs, p.1.merkle_tree_pubkey_index < pks.length) →
      ∃ l, enrichInputs slot pks pairs = .ok l ∧ l.length = pairs.length := by
  intro pairs
  induction pairs with
  | nil => intro _; exact ⟨[], rfl, rfl⟩
  | cons p rest ih =>
    intro h
    obtain ⟨tail, htail, hlen⟩ := ih fun q hq => h q (List.mem_cons_of_mem p hq)
    have hp : p.1.merkle_tree_pubkey_index < pks.length := h p (List.mem_cons_self p rest)
    have ht : pks[p.1.merkle_tree_pubkey_index]? =
        some (pks[p.1.merkle_tree_pubkey_index]) :=
      List.getElem?_eq_some.mpr ⟨hp, rfl⟩
    refine ⟨{ account := p.1.compressed_account,
              tree := pks[p.1.merkle_tree_pubkey_index],
              seq := none, slot := slot, hash := p.2 } :: tail, ?_, by simp [hlen]⟩
    simp only [enrichInputs]
    rw [ht, htail]
    rfl

/-- Enriching the zipped input pairs panics with the Rust index-out-of-bounds
message at the first zipped account whose tree index is out of range. -/
theorem enrichInputs_panicked (slot : Nat) (pks : List Pubkey) :
    ∀ (pairs : List (CompressedAccountWithMerkleContext × Hash32)) (j : Nat)
      (p : CompressedAccountWithMerkleContext × Hash32),
      pairs[j]? = some p → pks.length ≤ p.1.merkle_tree_pubkey_index →
      (∀ (k : Nat) (q : CompressedAccountWithMerkleContext × Hash32),
        k < j → pairs[k]? = some q → q.1.merkle_tree_pubkey_index < pks.length) →
      enrichInputs slot pks pairs =
        .panicked (indexPanicMsg pks.length p.1.merkle_tree_pubkey_index) := by
  intro pairs
  induction pairs with
  | nil => intro j p hp _ _; simp at hp
  | cons q rest ih =>
    intro j p hp hout hbefore
    cases j with
    | zero =>
      simp only [List.getElem?_cons_zero, Option.some.injEq] at hp
      subst hp
      simp only [enrichInputs]
      rw [List.getElem?_eq_none hout]
    | succ j =>
      simp only [List.getElem?_cons_succ] at hp
      have hq : q.1.merkle_tree_pubkey_index < pks.length :=
        hbefore 0 q (Nat.succ_pos j) List.getElem?_cons_zero
      have ht : pks[q.1.merkle_tree_pubkey_index]? =
          some (pks[q.1.merkle_tree_pubkey_index]) :=
        List.getElem?_eq_some.mpr ⟨hq, rfl⟩
      simp only [enrichInputs]
      rw [ht, ih j p hp hout
        (fun k r hk hr =>
          hbefore (k+1) r (Nat.succ_lt_succ hk)
            (by rw [List.getElem?_cons_succ]; exact hr))]
      rfl

/-- Unfolding of the scanner at a position with three instructions left. -/
theorem scanInstructions_cons3 (sig : Signature) (slot : Nat)
    (a b c : Instruction) (rest : List Instruction) :
    scanInstructions sig slot (a :: b :: c :: rest) =
      if isTriggerTriple a b c then
        (processTrigger sig slot b c).bind fun state_update =>
          (scanInstructions sig slot (b :: c :: rest)).map
            (fun l => state_update :: l)
      else
        scanInstructions sig slot (b :: c :: rest) := rfl

/-- Unfolding of the group scan at a non-empty group list. -/
theorem scanGroups_cons (sig : Signature) (slot : Nat)
    (g : InstructionGroup) (gs : List InstructionGroup) :
    scanGroups sig slot (g :: gs) =
      (scanInstructions sig slot (orderedInstructions g)).bind fun l =>
        (scanGroups sig slot gs).map (fun l2 => l ++ l2) := rfl

/-- Scanning a group in which no position satisfies the trigger condition
produces no per-trigger updates. -/
theorem scanInstructions_no_trigger (sig : Signature) (slot : Nat) :
    ∀ (insts : List Instruction),
      (∀ i, i + 2 < insts.length →
        ¬ isTriggerTriple (insts.getD i dummyInstruction)
          (insts.getD (i+1) dummyInstruction)
          (insts.getD (i+2) dummyInstruction)) →
      scanInstructions sig slot insts = .ok []
  | [], _ => rfl
  | [_], _ => rfl
  | [_, _], _ => rfl
  | a :: b :: c :: rest, h => by
    have h0 : ¬ isTriggerTriple a b c := by
      simpa using h 0 (by simp only [List.length_cons]; omega)
    rw [scanInstructions_cons3, if_neg h0]
    exact scanInstructions_no_trigger sig slot (b :: c :: rest)
      (fun i hi => by
        simpa [List.getD_cons_succ] using
          h (i+1) (by simp only [List.length_cons] at hi ⊢; omega))

/-- Scanning groups none of which produces an update yields no updates. -/
theorem scanGroups_all_empty (sig : Signature) (slot : Nat) :
    ∀ (gs : List InstructionGroup),
      (∀ g ∈ gs, scanInstructions sig slot (orderedInstructions g) = .ok []) →
      scanGroups sig slot gs = .ok []
  | [], _ => rfl
  | g :: gs, h => by
    rw [scanGroups_cons, h g (List.mem_cons_self g gs)]
    rw [scanGroups_all_empty sig slot gs
      (fun g' hg' => h g' (List.mem_cons_of_mem g hg'))]
    rfl

/-- A successfully processed trigger had both payloads decode. -/
theorem processTrigger_ok_decodes (sig : Signature) (slot : Nat)
    (b c : Instruction) (su : StateUpdate)
    (h : processTrigger sig slot b c = .ok su) :
    (∃ cls, deserializeChangelogs b.data = Except.ok cls) ∧
      (∃ ev, deserializePublicTransactionEvent c.data = Except.ok ev) := by
  unfold processTrigger at h
  cases d1 : deserializeChangelogs b.data with
  | error e => rw [d1] at h; cases h
  | ok cls =>
    rw [d1] at h
    cases d2 : deserializePublicTransactionEvent c.data with
    | error e => rw [d2] at h; cases h
    | ok ev => exact ⟨⟨cls, rfl⟩, ⟨ev, rfl⟩⟩

/-- A changelog decode failure turns into a `ParserError`. -/
theorem processTrigger_err_changelogs (sig : Signature) (slot : Nat)
    (b c : Instruction) (e : String)
    (h : deserializeChangelogs b.data = .error e) :
    processTrigger sig slot b c =
      .err (IngesterError.ParserError ("Failed to deserialize Changelogs: " ++ e)) := by
  unfold processTrigger
  rw [h]

/-- A transaction-event decode failure turns into a `ParserError`. -/
theorem processTrigger_err_event (sig : Signature) (slot : Nat)
    (b c : Instruction) (cls : Changelogs) (e : String)
    (h1 : deserializeChangelogs b.data = .ok cls)
    (h2 : deserializePublicTransactionEvent c.data = .error e) :
    processTrigger sig slot b c =
      .err (IngesterError.ParserError
        ("Failed to deserialize PublicTransactionEvent: " ++ e)) := by
  unfold processTrigger
  rw [h1, h2]

/-- If a group scan succeeds, both payloads of every matched trigger in it
decoded successfully. -/
theorem scanInstructions_ok_decodes (sig : Signature) (slot : Nat) :
    ∀ (insts : List Instruction) (l : List StateUpdate),
      scanInstructions sig slot insts = .ok l →
      ∀ (i : Nat) (a b c : Instruction),
        insts[i]? = some a → insts[i+1]? = some b → insts[i+2]? = some c →
        isTriggerTriple a b c →
        (∃ cls, deserializeChangelogs b.data = Except.ok cls) ∧
          (∃ ev, deserializePublicTransactionEvent c.data = Except.ok ev)
  | [], _, _, i, a, b, c, h1, _, _, _ => by simp at h1
  | [_], _, _, i, a, b, c, _, _, h3, _ => by
    rw [List.getElem?_eq_none (by simp only [List.length_cons, List.length_nil]; omega)] at h3
    cases h3
  | [_, _], _, _, i, a, b, c, _, _, h3, _ => by
    rw [List.getElem?_eq_none (by simp only [List.length_cons, List.length_nil]; omega)] at h3
    cases h3
  | x :: y :: z :: rest, l, hok, i, a, b, c, h1, h2, h3, htr => by
    rw [scanInstructions_cons3] at hok
    by_cases ht : isTriggerTriple x y z
    · rw [if_pos ht] at hok
      cases hp : processTrigger sig slot y z with
      | err e => rw [hp] at hok; cases hok
      | panicked m => rw [hp] at hok; cases hok
      | ok su =>
        rw [hp] at hok
        simp only [ParseOutcome.bind] at hok
        cases hs : scanInstructions sig slot (y :: z :: rest) with
        | err e => rw [hs] at hok; cases hok
        | panicked m => rw [hs] at hok; cases hok
        | ok l2 =>
          cases i with
          | zero =>
            simp only [List.getElem?_cons_succ, List.getElem?_cons_zero,
              Option.some.injEq] at h1 h2 h3
            subst h1; subst h2; subst h3
            exact processTrigger_ok_decodes sig slot y z su hp
          | succ i =>
            exact scanInstructions_ok_decodes sig slot (y :: z :: rest) l2 hs i a b c
              (by simpa using h1) (by simpa using h2) (by simpa using h3) htr
    · rw [if_neg ht] at hok
      cases i with
      | zero =>
        simp only [List.getElem?_cons_succ, List.getElem?_cons_zero,
          Option.some.injEq] at h1 h2 h3
        subst h1; subst h2; subst h3
        exact absurd htr ht
      | succ i =>
        exact scanInstructions_ok_decodes sig slot (y :: z :: rest) l hok i a b c
          (by simpa using h1) (by simpa using h2) (by simpa using h3) htr

/-- If the whole group list scans successfully, each group's scan did. -/
theorem scanGroups_ok_each (sig : Signature) (slot : Nat) :
    ∀ (gs : List InstructionGroup) (L : List StateUpdate),
      scanGroups sig slot gs = .ok L →
      ∀ g ∈ gs, ∃ l, scanInstructions sig slot (orderedInstructions g) = .ok l
  | [], _, _, g, hg => by simp at hg
  | g0 :: gs, L, hok, g, hg => by
    rw [scanGroups_cons] at hok
    cases hs : scanInstructions sig slot (orderedInstructions g0) with
    | err e => rw [hs] at hok; cases hok
    | panicked m => rw [hs] at hok; cases hok
    | ok l0 =>
      rw [hs] at hok
      simp only [ParseOutcome.bind] at hok
      cases hr : scanGroups sig slot gs with
      | err e => rw [hr] at hok; cases hok
      | panicked m => rw [hr] at hok; cases hok
      | ok L2 =>
        rcases List.mem_cons.mp hg with rfl | hg2
        · exact ⟨l0, hs⟩
        · exact scanGroups_ok_each sig slot gs L2 hr g hg2

/-- A successful whole-transaction parse had a successful group scan. -/
theorem parse_transaction_ok_groups (tx : TransactionInfo) (slot : Nat)
    (su : StateUpdate) (h : parse_transaction tx slot = .ok su) :
    ∃ L, scanGroups tx.signature slot tx.instruction_groups = .ok L := by
  unfold parse_transaction at h
  cases hs : scanGroups tx.signature slot tx.instruction_groups with
  | err e => rw [hs] at h; cases h
  | panicked m => rw [hs] at h; cases h
  | ok L => exact ⟨L, rfl⟩

/-- A trigger at the head of the first group whose processing returns an
error fails the whole transaction with that error. -/
theorem parse_transaction_head_err (sig : Signature) (slot : Nat)
    (a b c : Instruction) (rest : List Instruction)
    (gs : List InstructionGroup) (e : IngesterError)
    (htr : isTriggerTriple a b c)
    (hpt : processTrigger sig slot b c = .err e) :
    parse_transaction
      { signature := sig
        instruction_groups :=
          { outer_instruction := a, inner_instructions := b :: c :: rest } :: gs }
      slot = .err e := by
  unfold parse_transaction
  rw [scanGroups_cons]
  rw [show orderedInstructions
      { outer_instruction := a, inner_instructions := b :: c :: rest } =
      a :: b :: c :: rest from rfl]
  rw [scanInstructions_cons3, if_pos htr, hpt]
  rfl

/-- A trigger at the head of the first group whose processing panics fails
the whole transaction with that panic. -/
theorem parse_transaction_head_panicked (sig : Signature) (slot : Nat)
    (a b c : Instruction) (rest : List Instruction)
    (gs : List InstructionGroup) (m : String)
    (htr : isTriggerTriple a b c)
    (hpt : processTrigger sig slot b c = .panicked m) :
    parse_transaction
      { signature := sig
        instruction_groups :=
          { outer_instruction := a, inner_instructions := b :: c :: rest } :: gs }
      slot = .panicked m := by
  unfold parse_transaction
  rw [scanGroups_cons]
  rw [show orderedInstructions
      { outer_instruction := a, inner_instructions := b :: c :: rest } =
      a :: b :: c :: rest from rfl]
  rw [scanInstructions_cons3, if_pos htr, hpt]
  rfl

/-- Successful-case shape of the event assembler: valid inputs and matching
counts produce the enriched record directly. -/
theorem parse_pte_ok_form (sig : Signature) (slot : Nat)
    (ev : PublicTransactionEvent) (cls : Changelogs) (ins : List EnrichedAccount)
    (hin : enrichInputs slot ev.pubkey_array
      (ev.input_compressed_accounts.zip ev.input_compressed_account_hashes) = .ok ins)
    (hcount : ev.output_compressed_accounts.length = (extract_path_updates cls).length) :
    parse_public_transaction_event sig slot ev cls =
      .ok { in_accounts := ins
            out_accounts :=
              ((ev.output_compressed_accounts.zip (extract_path_updates cls)).zip
                  ev.output_compressed_account_hashes).map
                fun x => { account := x.1.1, tree := x.1.2.tree,
                           seq := some x.1.2.seq, slot := slot, hash := x.2 }
            path_nodes :=
              (extract_path_updates cls).flatMap fun p =>
                p.path.enum.map fun x =>
                  { node := x.2, slot := slot, tree := p.tree, seq := p.seq,
                    level := x.1, tree_depth := p.path.length } } := by
  unfold parse_public_transaction_event
  rw [hin]
  dsimp only
  rw [if_neg (not_not_intro hcount)]

/-- Error-case shape of the event assembler: a count mismatch after valid
inputs yields the malformed-event error with the signature in the message. -/
theorem parse_pte_mismatch (sig : Signature) (slot : Nat)
    (ev : PublicTransactionEvent) (cls : Changelogs) (ins : List EnrichedAccount)
    (hin : enrichInputs slot ev.pubkey_array
      (ev.input_compressed_accounts.zip ev.input_compressed_account_hashes) = .ok ins)
    (hcount : ev.output_compressed_accounts.length ≠ (extract_path_updates cls).length) :
    parse_public_transaction_event sig slot ev cls =
      .err (IngesterError.MalformedEvent (outputMismatchMsg sig)) := by
  unfold parse_public_transaction_event
  rw [hin]
  dsimp only
  rw [if_pos hcount]

/-- Panic propagation of the event assembler: a panic while enriching the
inputs is the whole function's outcome. -/
theorem parse_pte_panicked (sig : Signature) (slot : Nat)
    (ev : PublicTransactionEvent) (cls : Changelogs) (m : String)
    (hin : enrichInputs slot ev.pubkey_array
      (ev.input_compressed_accounts.zip ev.input_compressed_account_hashes) =
        .panicked m) :
    parse_public_transaction_event sig slot ev cls = .panicked m := by
  unfold parse_public_transaction_event
  rw [hin]

/-- Inversion of a successful event assembly into its three components. -/
theorem parse_pte_ok_inv (sig : Signature) (slot : Nat)
    (ev : PublicTransactionEvent) (cls : Changelogs) (su : StateUpdate)
    (h : parse_public_transaction_event sig slot ev cls = .ok su) :
    ∃ ins, enrichInputs slot ev.pubkey_array
        (ev.input_compressed_accounts.zip ev.input_compressed_account_hashes) = .ok ins ∧
      ev.output_compressed_accounts.length = (extract_path_updates cls).length ∧
      su = { in_accounts := ins
             out_accounts :=
               ((ev.output_compressed_accounts.zip (extract_path_updates cls)).zip
                   ev.output_compressed_account_hashes).map
                 fun x => { account := x.1.1, tree := x.1.2.tree,
                            seq := some x.1.2.seq, slot := slot, hash := x.2 }
             path_nodes :=
               (extract_path_updates cls).flatMap fun p =>
                 p.path.enum.map fun x =>
                   { node := x.2, slot := slot, tree := p.tree, seq := p.seq,
                     level := x.1, tree_depth := p.path.length } } := by
  unfold parse_public_transaction_event at h
  cases he : enrichInputs slot ev.pubkey_array
      (ev.input_compressed_accounts.zip ev.input_compressed_account_hashes) with
  | err e => rw [he] at h; cases h
  | panicked m => rw [he] at h; cases h
  | ok ins =>
    rw [he] at h
    dsimp only at h
    by_cases hc :
        ev.output_compressed_accounts.length = (extract_path_updates cls).length
    · rw [if_neg (not_not_intro hc)] at h
      cases h
      exact ⟨ins, rfl, hc, rfl⟩
    · rw [if_pos hc] at h
      cases h

/-- All-zero signature used by the concrete evaluation inputs. -/
def wSig : Signature := List.replicate 64 0

/-- Concrete account-compression instruction whose account list contains
the noop program, as the emitter produces. -/
def acpTriggerInstruction : Instruction :=
  { program_id := ACCOUNT_COMPRESSION_PROGRAM_ID
    accounts := [NOOP_PROGRAM_ID]
    data := [] }

/-- Concrete noop instruction carrying a payload. -/
def noopInstruction (d : List Nat) : Instruction :=
  { program_id := NOOP_PROGRAM_ID, accounts := [], data := d }

/-- Serialized empty `Changelogs` (count 0). -/
def emptyChangelogsBytes : List Nat := [0, 0, 0, 0]

/-- Serialized `Changelogs` with one v1 event: tree id of 7-bytes, a single
path of two nodes with indices 9 and 10, sequence 7. -/
def oneEventChangelogBytes : List Nat :=
  [1,0,0,0] ++ [0,0,0,0] ++ List.replicate 32 7 ++ [1,0,0,0] ++ [2,0,0,0]
    ++ (List.replicate 32 5 ++ [9,0,0,0,0,0,0,0])
    ++ (List.replicate 32 5 ++ [10,0,0,0,0,0,0,0])
    ++ [7,0,0,0,0,0,0,0] ++ [0,0,0,0,0,0,0,0]

/-- Serialized `PublicTransactionEvent` with no inputs, one output hash of
3-bytes, one empty output account, and an empty pubkey table. -/
def oneOutputEventBytes : List Nat :=
  [0,0,0,0] ++ ([1,0,0,0] ++ List.replicate 32 3) ++ [0,0,0,0]
    ++ ([1,0,0,0] ++ [0,0,0,0]) ++ [0,0,0,0]

/-- Concrete transaction with one well-formed trigger. -/
def happyTx : TransactionInfo :=
  { signature := wSig
    instruction_groups :=
      [{ outer_instruction := acpTriggerInstruction
         inner_instructions :=
           [noopInstruction oneEventChangelogBytes,
            noopInstruction oneOutputEventBytes] }] }

/-- Parse result of `happyTx` at slot 5. -/
def happyStateUpdate : StateUpdate :=
  { in_accounts := []
    out_accounts :=
      [{ account := [], tree := List.replicate 32 7, seq := some 7, slot := 5,
         hash := List.replicate 32 3 }]
    path_nodes :=
      [{ node := { node := List.replicate 32 5, index := 9 }, slot := 5,
         tree := List.replicate 32 7, seq := 7, level := 0, tree_depth := 2 },
       { node := { node := List.replicate 32 5, index := 10 }, slot := 5,
         tree := List.replicate 32 7, seq := 7, level := 1, tree_depth := 2 }] }

/-- Concrete transaction with no account-compression instruction at all. -/
def noTriggerTx : TransactionInfo :=
  { signature := wSig
    instruction_groups :=
      [{ outer_instruction := noopInstruction [1, 2, 3]
         inner_instructions := [noopInstruction [4]] }] }

/-- Concrete account-compression instruction WITHOUT the noop program in
its account list (seed scenario 4). -/
def acpNoNoopAccounts : Instruction :=
  { program_id := ACCOUNT_COMPRESSION_PROGRAM_ID, accounts := [], data := [] }

/-- Concrete transaction with a noop-noop pair preceded by an
account-compression instruction lacking the noop account. -/
def missingAccountTx : TransactionInfo :=
  { signature := wSig
    instruction_groups :=
      [{ outer_instruction := acpNoNoopAccounts
         inner_instructions :=
           [noopInstruction emptyChangelogsBytes,
            noopInstruction (List.replicate 20 0)] }] }

/-- Concrete trigger whose changelog payload is empty bytes (short read). -/
def changelogFailTx : TransactionInfo :=
  { signature := wSig
    instruction_groups :=
      [{ outer_instruction := acpTriggerInstruction
         inner_instructions := [noopInstruction [], noopInstruction []] }] }

/-- Concrete trigger whose event payload is empty bytes (short read). -/
def eventFailTx : TransactionInfo :=
  { signature := wSig
    instruction_groups :=
      [{ outer_instruction := acpTriggerInstruction
         inner_instructions :=
           [noopInstruction emptyChangelogsBytes, noopInstruction []] }] }

/-- C9: for every transaction in which no instruction triple satisfies the
trigger condition (for example, one with no account-compression
instruction at all), `parse_transaction` returns `Ok` with a `StateUpdate`
whose `in_accounts`, `out_accounts` and `path_nodes` are all empty; it is
not an error. -/
theorem c9_no_trigger_returns_empty (tx : TransactionInfo) (slot : Nat)
    (h : ∀ g ∈ tx.instruction_groups,
      ∀ i, i + 2 < (orderedInstructions g).length →
        ¬ isTriggerTriple ((orderedInstructions g).getD i dummyInstruction)
          ((orderedInstructions g).getD (i+1) dummyInstruction)
          ((orderedInstructions g).getD (i+2) dummyInstruction)) :
    parse_transaction tx slot =
      .ok { in_accounts := [], out_accounts := [], path_nodes := [] } := by
  unfold parse_transaction
  rw [scanGroups_all_empty tx.signature slot tx.instruction_groups
    (fun g hg => scanInstructions_no_trigger tx.signature slot _ (h g hg))]
  rfl

/-- Witness for C9 at a concrete transaction with no account-compression
instruction. -/
theorem c9_witness :
    parse_transaction noTriggerTx 3 =
      .ok { in_accounts := [], out_accounts := [], path_nodes := [] } := by
  refine c9_no_trigger_returns_empty noTriggerTx 3 ?_
  intro g hg i hi
  simp only [noTriggerTx, List.mem_singleton] at hg
  subst hg
  simp only [orderedInstructions, List.length_cons, List.length_nil] at hi
  exact absurd hi (by omega)

/-- C2: the scanner's trigger at a position with at least three
instructions left matches exactly when the four conditions hold (the
account-compression program id, its account list containing the noop id,
and two following noop instructions); when it matches the trigger is
processed, and a transaction all of whose noop-noop pairs are not preceded
by such an account-compression instruction produces no output. -/
theorem c2_trigger_discrimination :
    (∀ (sig : Signature) (slot : Nat) (a b c : Instruction)
        (rest : List Instruction),
      isTriggerTriple a b c →
      scanInstructions sig slot (a :: b :: c :: rest) =
        (processTrigger sig slot b c).bind fun su =>
          (scanInstructions sig slot (b :: c :: rest)).map (fun l => su :: l)) ∧
    (∀ (tx : TransactionInfo) (slot : Nat),
      (∀ g ∈ tx.instruction_groups,
        ∀ i, i + 2 < (orderedInstructions g).length →
          ((orderedInstructions g).getD (i+1) dummyInstruction).program_id =
            NOOP_PROGRAM_ID →
          ((orderedInstructions g).getD (i+2) dummyInstruction).program_id =
            NOOP_PROGRAM_ID →
          ¬ (((orderedInstructions g).getD i dummyInstruction).program_id =
              ACCOUNT_COMPRESSION_PROGRAM_ID ∧
            NOOP_PROGRAM_ID ∈
              ((orderedInstructions g).getD i dummyInstruction).accounts)) →
      parse_transaction tx slot =
        .ok { in_accounts := [], out_accounts := [], path_nodes := [] }) := by
  constructor
  · intro sig slot a b c rest htr
    rw [scanInstructions_cons3, if_pos htr]
  · intro tx slot h
    unfold parse_transaction
    rw [scanGroups_all_empty tx.signature slot tx.instruction_groups
      (fun g hg => scanInstructions_no_trigger tx.signature slot _
        (fun i hi => by
          rintro ⟨hA, hMem, hB, hC⟩
          exact h g hg i hi hB hC ⟨hA, hMem⟩))]
    rfl

/-- Witness for C2: the positive direction at a concrete matched triple and
the negative direction at a concrete transaction whose noop-noop pair is
preceded by an account-compression instruction without the noop account. -/
theorem c2_witness :
    (isTriggerTriple acpTriggerInstruction
        (noopInstruction oneEventChangelogBytes)
        (noopInstruction oneOutputEventBytes) ∧
      scanInstructions wSig 5
          [acpTriggerInstruction, noopInstruction oneEventChangelogBytes,
            noopInstruction oneOutputEventBytes] =
        (processTrigger wSig 5 (noopInstruction oneEventChangelogBytes)
            (noopInstruction oneOutputEventBytes)).bind fun su =>
          (scanInstructions wSig 5
              [noopInstruction oneEventChangelogBytes,
                noopInstruction oneOutputEventBytes]).map (fun l => su :: l)) ∧
    parse_transaction missingAccountTx 5 =
      .ok { in_accounts := [], out_accounts := [], path_nodes := [] } := by
  refine ⟨⟨by decide, c2_trigger_discrimination.1 wSig 5 _ _ _ [] (by decide)⟩, ?_⟩
  refine c2_trigger_discrimination.2 missingAccountTx 5 ?_
  intro g hg i hi
  simp only [missingAccountTx, List.mem_singleton] at hg
  subst hg
  simp only [orderedInstructions, List.length_cons, List.length_nil] at hi
  have hi0 : i = 0 := by omega
  subst hi0
  intro _ _
  decide

/-- C4: if a matched trigger's changelog payload or transaction-event
payload fails to decode, the whole transaction fails (no `StateUpdate` is
produced for any trigger), and when the failing trigger heads the first
group the error is the corresponding `ParserError`. -/
theorem c4_decode_failure_aborts :
    (∀ (tx : TransactionInfo) (slot : Nat) (su : StateUpdate),
      parse_transaction tx slot = .ok su →
      ∀ g ∈ tx.instruction_groups, ∀ (i : Nat) (a b c : Instruction),
        (orderedInstructions g)[i]? = some a →
        (orderedInstructions g)[i+1]? = some b →
        (orderedInstructions g)[i+2]? = some c →
        isTriggerTriple a b c →
        (∃ cls, deserializeChangelogs b.data = Except.ok cls) ∧
          (∃ ev, deserializePublicTransactionEvent c.data = Except.ok ev)) ∧
    (∀ (sig : Signature) (slot : Nat) (a b c : Instruction)
        (rest : List Instruction) (gs : List InstructionGroup) (e : String),
      isTriggerTriple a b c →
      deserializeChangelogs b.data = .error e →
      parse_transaction
        { signature := sig
          instruction_groups :=
            { outer_instruction := a, inner_instructions := b :: c :: rest } :: gs }
        slot =
        .err (IngesterError.ParserError
          ("Failed to deserialize Changelogs: " ++ e))) ∧
    (∀ (sig : Signature) (slot : Nat) (a b c : Instruction)
        (rest : List Instruction) (gs : List InstructionGroup)
        (cls : Changelogs) (e : String),
      isTriggerTriple a b c →
      deserializeChangelogs b.data = .ok cls →
      deserializePublicTransactionEvent c.data = .error e →
      parse_transaction
        { signature := sig
          instruction_groups :=
            { outer_instruction := a, inner_instructions := b :: c :: rest } :: gs }
        slot =
        .err (IngesterError.ParserError
          ("Failed to deserialize PublicTransactionEvent: " ++ e))) := by
  refine ⟨?_, ?_, ?_⟩
  · intro tx slot su hok g hg i a b c h1 h2 h3 htr
    obtain ⟨L, hL⟩ := parse_transaction_ok_groups tx slot su hok
    obtain ⟨l, hl⟩ := scanGroups_ok_each tx.signature slot tx.instruction_groups L hL g hg
    exact scanInstructions_ok_decodes tx.signature slot (orderedInstructions g) l hl
      i a b c h1 h2 h3 htr
  · intro sig slot a b c rest gs e htr hd
    exact parse_transaction_head_err sig slot a b c rest gs _ htr
      (processTrigger_err_changelogs sig slot b c e hd)
  · intro sig slot a b c rest gs cls e htr hd1 hd2
    exact parse_transaction_head_err sig slot a b c rest gs _ htr
      (processTrigger_err_event sig slot b c cls e hd1 hd2)

/-- Witness for C4: the successful decode of the happy-path trigger, and
the two decode-failure transactions each failing whole with a
`ParserError`. -/
theorem c4_witness :
    (parse_transaction happyTx 5 = .ok happyStateUpdate ∧
      ((∃ cls, deserializeChangelogs
          (noopInstruction oneEventChangelogBytes).data = Except.ok cls) ∧
        (∃ ev, deserializePublicTransactionEvent
          (noopInstruction oneOutputEventBytes).data = Except.ok ev))) ∧
    parse_transaction changelogFailTx 5 =
      .err (IngesterError.ParserError
        ("Failed to deserialize Changelogs: " ++ "Unexpected length of input")) ∧
    parse_transaction eventFailTx 5 =
      .err (IngesterError.ParserError
        ("Failed to deserialize PublicTransactionEvent: " ++
          "Unexpected length of input")) := by
  refine ⟨⟨by decide, ?_⟩, ?_, ?_⟩
  · exact c4_decode_failure_aborts.1 happyTx 5 happyStateUpdate (by decide)
      { outer_instruction := acpTriggerInstruction
        inner_instructions :=
          [noopInstruction oneEventChangelogBytes,
            noopInstruction oneOutputEventBytes] }
      (by decide) 0 acpTriggerInstruction
      (noopInstruction oneEventChangelogBytes)
      (noopInstruction oneOutputEventBytes)
      (by simp [orderedInstructions, happyTx])
      (by simp [orderedInstructions, happyTx])
      (by simp [orderedInstructions, happyTx])
      (by decide)
  · exact c4_decode_failure_aborts.2.1 wSig 5 acpTriggerInstruction
      (noopInstruction []) (noopInstruction []) [] []
      "Unexpected length of input" (by decide) rfl
  · exact c4_decode_failure_aborts.2.2 wSig 5 acpTriggerInstruction
      (noopInstruction emptyChangelogsBytes) (noopInstruction [])
      [] [] { changelogs := [] } "Unexpected length of input"
      (by decide) rfl rfl

/-- Concrete tree id for decoded-event inputs. -/
def wTree : Hash32 := List.replicate 32 7

/-- Concrete path nodes. -/
def wNodeA : PathNode := { node := List.replicate 32 5, index := 9 }

def wNodeB : PathNode := { node := List.replicate 32 6, index := 10 }

def wNodeC : PathNode := { node := List.replicate 32 8, index := 11 }

/-- Concrete decoded changelogs: one v1 event with two paths (lengths 2
and 1) and sequence 7. -/
def wCls : Changelogs :=
  { changelogs :=
      [ChangelogEvent.V1
        { id := wTree, paths := [[wNodeA, wNodeB], [wNodeC]], seq := 7, index := 0 }] }

/-- Second path update extracted from `wCls`. -/
def wPathUpdate1 : PathUpdate := { tree := wTree, path := [wNodeC], seq := 7 }

def wPk0 : Pubkey := List.replicate 32 1

def wPk1 : Pubkey := List.replicate 32 2

/-- Concrete decoded transaction event with two inputs and two outputs. -/
def wEv : PublicTransactionEvent :=
  { input_compressed_account_hashes := [List.replicate 32 11, List.replicate 32 12]
    output_compressed_account_hashes := [List.replicate 32 13, List.replicate 32 14]
    input_compressed_accounts :=
      [{ compressed_account := [101], merkle_tree_pubkey_index := 1 },
       { compressed_account := [102], merkle_tree_pubkey_index := 0 }]
    output_compressed_accounts := [[103], [104]]
    pubkey_array := [wPk0, wPk1] }

/-- Assembled state update of `wEv` with `wCls` at slot 5. -/
def wStateUpdate : StateUpdate :=
  { in_accounts :=
      [{ account := [101], tree := wPk1, seq := none, slot := 5,
         hash := List.replicate 32 11 },
       { account := [102], tree := wPk0, seq := none, slot := 5,
         hash := List.replicate 32 12 }]
    out_accounts :=
      [{ account := [103], tree := wTree, seq := some 7, slot := 5,
         hash := List.replicate 32 13 },
       { account := [104], tree := wTree, seq := some 7, slot := 5,
         hash := List.replicate 32 14 }]
    path_nodes :=
      [{ node := wNodeA, slot := 5, tree := wTree, seq := 7, level := 0, tree_depth := 2 },
       { node := wNodeB, slot := 5, tree := wTree, seq := 7, level := 1, tree_depth := 2 },
       { node := wNodeC, slot := 5, tree := wTree, seq := 7, level := 0, tree_depth := 1 }] }

/-- C5: for every path update whose path has length `L`, the assembler
emits exactly `L` enriched path nodes — the total count is the sum of the
path lengths — and the node at offset `i` inside that path's segment has
`level = i`, `tree_depth = L`, `node = path[i]`, and the path update's
`tree` and `seq`. -/
theorem c5_path_expansion (sig : Signature) (slot : Nat)
    (ev : PublicTransactionEvent) (cls : Changelogs) (su : StateUpdate)
    (h : parse_public_transaction_event sig slot ev cls = .ok su) :
    su.path_nodes.length =
      ((extract_path_updates cls).map fun p => p.path.length).sum ∧
    ∀ (t : Nat) (pu : PathUpdate), (extract_path_updates cls)[t]? = some pu →
      ∀ (i : Nat) (nd : PathNode), pu.path[i]? = some nd →
        su.path_nodes[
          (((extract_path_updates cls).take t).map fun p => p.path.length).sum + i]? =
          some { node := nd, slot := slot, tree := pu.tree, seq := pu.seq,
                 level := i, tree_depth := pu.path.length } := by
  obtain ⟨ins, hin, hc, rfl⟩ := parse_pte_ok_inv sig slot ev cls su h
  constructor
  · dsimp only
    rw [List.length_flatMap]
    congr 1
    refine List.map_congr_left ?_
    intro p _
    simp [List.enum_length]
  · intro t pu hpu i nd hnd
    dsimp only
    have hy : ((fun p : PathUpdate => p.path.enum.map fun x =>
        ({ node := x.2, slot := slot, tree := p.tree, seq := p.seq,
           level := x.1, tree_depth := p.path.length } : EnrichedPathNode)) pu)[i]? =
        some { node := nd, slot := slot, tree := pu.tree, seq := pu.seq,
               level := i, tree_depth := pu.path.length } :=
      enum_map_getElem? pu.path _ i nd hnd
    have key := flatMap_getElem?_offset
      (fun p : PathUpdate => p.path.enum.map fun x =>
        ({ node := x.2, slot := slot, tree := p.tree, seq := p.seq,
           level := x.1, tree_depth := p.path.length } : EnrichedPathNode))
      (extract_path_updates cls) t pu hpu i _ hy
    simpa only [List.length_map, List.enum_length] using key

/-- Witness for C5 at the concrete event: three nodes total, and the node
of the second path update (offset 1 + 0 = position 2) carries level 0,
depth 1 and the path update's tree and sequence. -/
theorem c5_witness :
    parse_public_transaction_event wSig 5 wEv wCls = .ok wStateUpdate ∧
    (extract_path_updates wCls)[1]? = some wPathUpdate1 ∧
    wPathUpdate1.path[0]? = some wNodeC ∧
    wStateUpdate.path_nodes.length =
      ((extract_path_updates wCls).map fun p => p.path.length).sum ∧
    wStateUpdate.path_nodes[
      (((extract_path_updates wCls).take 1).map fun p => p.path.length).sum + 0]? =
      some { node := wNodeC, slot := 5, tree := wPathUpdate1.tree,
             seq := wPathUpdate1.seq, level := 0,
             tree_depth := wPathUpdate1.path.length } := by
  have h : parse_public_transaction_event wSig 5 wEv wCls = .ok wStateUpdate := by decide
  exact ⟨h, by decide, by decide,
    (c5_path_expansion wSig 5 wEv wCls wStateUpdate h).1,
    (c5_path_expansion wSig 5 wEv wCls wStateUpdate h).2 1 wPathUpdate1 (by decide)
      0 wNodeC (by decide)⟩

/-- C6: every emitted output account is bound positionally: position `j` of
`out_accounts` carries output account `j`, the tree and sequence of path
update `j` (sequence present), the slot, and output hash `j`. -/
theorem c6_output_binding (sig : Signature) (slot : Nat)
    (ev : PublicTransactionEvent) (cls : Changelogs) (su : StateUpdate)
    (h : parse_public_transaction_event sig slot ev cls = .ok su) :
    ∀ (j : Nat) (acct : CompressedAccount) (pu : PathUpdate) (hsh : Hash32),
      ev.output_compressed_accounts[j]? = some acct →
      (extract_path_updates cls)[j]? = some pu →
      ev.output_compressed_account_hashes[j]? = some hsh →
      su.out_accounts[j]? =
        some { account := acct, tree := pu.tree, seq := some pu.seq,
               slot := slot, hash := hsh } := by
  obtain ⟨ins, hin, hc, rfl⟩ := parse_pte_ok_inv sig slot ev cls su h
  intro j acct pu hsh h1 h2 h3
  dsimp only
  rw [List.getElem?_map,
    zip_getElem?_some _ _ j _ _ (zip_getElem?_some _ _ j _ _ h1 h2) h3]
  rfl

/-- Witness for C6 at position 0 of the concrete event. -/
theorem c6_witness :
    parse_public_transaction_event wSig 5 wEv wCls = .ok wStateUpdate ∧
    wStateUpdate.out_accounts[0]? =
      some { account := [103], tree := wTree, seq := some 7, slot := 5,
             hash := List.replicate 32 13 } := by
  have h : parse_public_transaction_event wSig 5 wEv wCls = .ok wStateUpdate := by decide
  exact ⟨h, c6_output_binding wSig 5 wEv wCls wStateUpdate h 0 [103]
    { tree := wTree, path := [wNodeA, wNodeB], seq := 7 }
    (List.replicate 32 13) (by decide) (by decide) (by decide)⟩

/-- C7: every emitted input account has `seq` absent, and position `j` of
`in_accounts` carries input account `j`'s payload, the pubkey-table entry
at its `merkle_tree_pubkey_index` as `tree`, and input hash `j`. -/
theorem c7_input_binding (sig : Signature) (slot : Nat)
    (ev : PublicTransactionEvent) (cls : Changelogs) (su : StateUpdate)
    (h : parse_public_transaction_event sig slot ev cls = .ok su) :
    (∀ x ∈ su.in_accounts, x.seq = none) ∧
    ∀ (j : Nat) (a : CompressedAccountWithMerkleContext) (hsh : Hash32) (t : Pubkey),
      ev.input_compressed_accounts[j]? = some a →
      ev.input_compressed_account_hashes[j]? = some hsh →
      ev.pubkey_array[a.merkle_tree_pubkey_index]? = some t →
      su.in_accounts[j]? =
        some { account := a.compressed_account, tree := t, seq := none,
               slot := slot, hash := hsh } := by
  obtain ⟨ins, hin, hc, rfl⟩ := parse_pte_ok_inv sig slot ev cls su h
  obtain ⟨hlen, hpoint⟩ := enrichInputs_ok_getElem slot ev.pubkey_array _ ins hin
  constructor
  · intro x hx
    dsimp only at hx
    obtain ⟨i, hilt, hie⟩ := List.mem_iff_getElem.mp hx
    have hj : ins[i]? = some x := List.getElem?_eq_some.mpr ⟨hilt, hie⟩
    have hplt : i <
        (ev.input_compressed_accounts.zip ev.input_compressed_account_hashes).length := by
      rw [← hlen]; exact hilt
    obtain ⟨p, hp⟩ : ∃ p, (ev.input_compressed_accounts.zip
        ev.input_compressed_account_hashes)[i]? = some p :=
      ⟨_, List.getElem?_eq_some.mpr ⟨hplt, rfl⟩⟩
    obtain ⟨t, _, hrec⟩ := hpoint i p hp
    have hx2 := Option.some.inj (hj.symm.trans hrec)
    rw [hx2]
  · intro j a hsh t h1 h2 h3
    have hp := zip_getElem?_some _ _ j _ _ h1 h2
    obtain ⟨t2, ht2, hrec⟩ := hpoint j (a, hsh) hp
    have ht := Option.some.inj (ht2.symm.trans h3)
    subst ht
    exact hrec

/-- Witness for C7 at position 0 of the concrete event, whose input account
selects pubkey-table entry 1. -/
theorem c7_witness :
    parse_public_transaction_event wSig 5 wEv wCls = .ok wStateUpdate ∧
    ({ account := [101], tree := wPk1, seq := none, slot := 5,
       hash := List.replicate 32 11 } : EnrichedAccount).seq = none ∧
    wStateUpdate.in_accounts[0]? =
      some { account := [101], tree := wPk1, seq := none, slot := 5,
             hash := List.replicate 32 11 } := by
  have h : parse_public_transaction_event wSig 5 wEv wCls = .ok wStateUpdate := by decide
  exact ⟨h,
    (c7_input_binding wSig 5 wEv wCls wStateUpdate h).1 _ (by decide),
    (c7_input_binding wSig 5 wEv wCls wStateUpdate h).2 0
      { compressed_account := [101], merkle_tree_pubkey_index := 1 }
      (List.replicate 32 11) wPk1 (by decide) (by decide) (by decide)⟩

/-- C10: the assembler performs no length validation between account lists
and hash lists: under valid input indices and the output-count check, it
succeeds with `in_accounts` of length `min |inputs| |input hashes|` and
`out_accounts` of length `min |outputs| |output hashes|` — a mismatch is
silently truncated, not reported. -/
theorem c10_silent_truncation (sig : Signature) (slot : Nat)
    (ev : PublicTransactionEvent) (cls : Changelogs)
    (hvalid : ∀ p ∈ ev.input_compressed_accounts.zip
        ev.input_compressed_account_hashes,
      p.1.merkle_tree_pubkey_index < ev.pubkey_array.length)
    (hcount : ev.output_compressed_accounts.length =
      (extract_path_updates cls).length) :
    ∃ su, parse_public_transaction_event sig slot ev cls = .ok su ∧
      su.in_accounts.length =
        min ev.input_compressed_accounts.length
          ev.input_compressed_account_hashes.length ∧
      su.out_accounts.length =
        min ev.output_compressed_accounts.length
          ev.output_compressed_account_hashes.length := by
  obtain ⟨ins, hin, hlen⟩ := enrichInputs_exists_ok slot ev.pubkey_array _ hvalid
  refine ⟨_, parse_pte_ok_form sig slot ev cls ins hin hcount, ?_, ?_⟩
  · dsimp only
    rw [hlen, List.length_zip]
  · dsimp only
    rw [List.length_map, List.length_zip, List.length_zip]
    omega

/-- Concrete event with more inputs than input hashes and more output
hashes than outputs. -/
def truncEv : PublicTransactionEvent :=
  { input_compressed_account_hashes := [List.replicate 32 21]
    output_compressed_account_hashes := [List.replicate 32 22, List.replicate 32 23]
    input_compressed_accounts :=
      [{ compressed_account := [105], merkle_tree_pubkey_index := 0 },
       { compressed_account := [106], merkle_tree_pubkey_index := 0 }]
    output_compressed_accounts := [[107]]
    pubkey_array := [wPk0] }

/-- Concrete changelogs with a single one-node path. -/
def wClsOne : Changelogs :=
  { changelogs :=
      [ChangelogEvent.V1 { id := wTree, paths := [[wNodeA]], seq := 3, index := 0 }] }

/-- Witness for C10 at the concrete mismatched event: two inputs against
one hash and one output against two hashes, both silently truncated. -/
theorem c10_witness :
    (∀ p ∈ truncEv.input_compressed_accounts.zip
        truncEv.input_compressed_account_hashes,
      p.1.merkle_tree_pubkey_index < truncEv.pubkey_array.length) ∧
    truncEv.output_compressed_accounts.length =
      (extract_path_updates wClsOne).length ∧
    (∃ su, parse_public_transaction_event wSig 5 truncEv wClsOne = .ok su ∧
      su.in_accounts.length =
        min truncEv.input_compressed_accounts.length
          truncEv.input_compressed_account_hashes.length ∧
      su.out_accounts.length =
        min truncEv.output_compressed_accounts.length
          truncEv.output_compressed_account_hashes.length) := by
  exact ⟨by decide, by decide,
    c10_silent_truncation wSig 5 truncEv wClsOne (by decide) (by decide)⟩

/-- C3: when the number of output accounts differs from the number of path
updates (and the visited input indices are valid, so the input loop does
not panic first), the assembler fails with `MalformedEvent`, the failure
propagates to `parse_transaction` for the whole transaction, and the error
message includes the transaction signature. -/
theorem c3_output_count_mismatch :
    (∀ (sig : Signature) (slot : Nat) (ev : PublicTransactionEvent)
        (cls : Changelogs),
      (∀ p ∈ ev.input_compressed_accounts.zip ev.input_compressed_account_hashes,
        p.1.merkle_tree_pubkey_index < ev.pubkey_array.length) →
      ev.output_compressed_accounts.length ≠ (extract_path_updates cls).length →
      parse_public_transaction_event sig slot ev cls =
        .err (IngesterError.MalformedEvent (outputMismatchMsg sig))) ∧
    (∀ (sig : Signature) (slot : Nat) (a b c : Instruction)
        (rest : List Instruction) (gs : List InstructionGroup)
        (cls : Changelogs) (ev : PublicTransactionEvent),
      isTriggerTriple a b c →
      deserializeChangelogs b.data = .ok cls →
      deserializePublicTransactionEvent c.data = .ok ev →
      (∀ p ∈ ev.input_compressed_accounts.zip ev.input_compressed_account_hashes,
        p.1.merkle_tree_pubkey_index < ev.pubkey_array.length) →
      ev.output_compressed_accounts.length ≠ (extract_path_updates cls).length →
      parse_transaction
        { signature := sig
          instruction_groups :=
            { outer_instruction := a, inner_instructions := b :: c :: rest } :: gs }
        slot = .err (IngesterError.MalformedEvent (outputMismatchMsg sig))) ∧
    (∀ sig : Signature, ∃ pre post : String,
      outputMismatchMsg sig = pre ++ signatureToString sig ++ post) := by
  refine ⟨?_, ?_, ?_⟩
  · intro sig slot ev cls hvalid hne
    obtain ⟨ins, hin, _⟩ := enrichInputs_exists_ok slot ev.pubkey_array _ hvalid
    exact parse_pte_mismatch sig slot ev cls ins hin hne
  · intro sig slot a b c rest gs cls ev htr hd1 hd2 hvalid hne
    refine parse_transaction_head_err sig slot a b c rest gs _ htr ?_
    unfold processTrigger
    rw [hd1, hd2]
    obtain ⟨ins, hin, _⟩ := enrichInputs_exists_ok slot ev.pubkey_array _ hvalid
    exact parse_pte_mismatch sig slot ev cls ins hin hne
  · intro sig
    exact ⟨"Number of path updates did not match the number of output accounts (txn: ",
      ")", rfl⟩

/-- Concrete decoded event with one output while the changelogs are empty. -/
def mismatchEv : PublicTransactionEvent :=
  { input_compressed_account_hashes := []
    output_compressed_account_hashes := [List.replicate 32 3]
    input_compressed_accounts := []
    output_compressed_accounts := [[]]
    pubkey_array := [] }

/-- Concrete empty changelogs. -/
def emptyCls : Changelogs := { changelogs := [] }

/-- Concrete transaction whose trigger decodes to one output account and
zero path updates. -/
def mismatchTx : TransactionInfo :=
  { signature := wSig
    instruction_groups :=
      [{ outer_instruction := acpTriggerInstruction
         inner_instructions :=
           [noopInstruction emptyChangelogsBytes,
            noopInstruction oneOutputEventBytes] }] }

/-- Witness for C3 at the concrete mismatched event and transaction. -/
theorem c3_witness :
    ((∀ p ∈ mismatchEv.input_compressed_accounts.zip
        mismatchEv.input_compressed_account_hashes,
      p.1.merkle_tree_pubkey_index < mismatchEv.pubkey_array.length) ∧
     mismatchEv.output_compressed_accounts.length ≠
       (extract_path_updates emptyCls).length ∧
     parse_public_transaction_event wSig 5 mismatchEv emptyCls =
       .err (IngesterError.MalformedEvent (outputMismatchMsg wSig))) ∧
    parse_transaction mismatchTx 5 =
      .err (IngesterError.MalformedEvent (outputMismatchMsg wSig)) := by
  refine ⟨⟨by decide, by decide,
    c3_output_count_mismatch.1 wSig 5 mismatchEv emptyCls (by decide) (by decide)⟩, ?_⟩
  exact c3_output_count_mismatch.2.1 wSig 5 acpTriggerInstruction
    (noopInstruction emptyChangelogsBytes) (noopInstruction oneOutputEventBytes)
    [] [] emptyCls mismatchEv (by decide) rfl rfl (by decide) (by decide)

/-- Serialized `PublicTransactionEvent` with one input hash, one input
account whose `merkle_tree_pubkey_index` is 5, and an empty pubkey table. -/
def badIndexEventBytes : List Nat :=
  ([1,0,0,0] ++ List.replicate 32 4) ++ [0,0,0,0]
    ++ ([1,0,0,0] ++ [0,0,0,0] ++ [5]) ++ [0,0,0,0] ++ [0,0,0,0]

/-- Concrete transaction whose trigger's event has an out-of-range
`merkle_tree_pubkey_index`. -/
def badIndexTx : TransactionInfo :=
  { signature := wSig
    instruction_groups :=
      [{ outer_instruction := acpTriggerInstruction
         inner_instructions :=
           [noopInstruction emptyChangelogsBytes,
            noopInstruction badIndexEventBytes] }] }

/-- Decoded form of `badIndexEventBytes`. -/
def badIdxEv : PublicTransactionEvent :=
  { input_compressed_account_hashes := [List.replicate 32 4]
    output_compressed_account_hashes := []
    input_compressed_accounts :=
      [{ compressed_account := [], merkle_tree_pubkey_index := 5 }]
    output_compressed_accounts := []
    pubkey_array := [] }

/-- Counterexample for C1: on a transaction whose matched trigger has an
input account with `merkle_tree_pubkey_index` 5 against an empty
`pubkey_array`, `parse_transaction` panics with Rust's index-out-of-bounds
message — it does not return a `MalformedEvent` error carrying the
transaction signature. -/
theorem c1_counterexample :
    parse_transaction badIndexTx 5 =
      .panicked "index out of bounds: the len is 0 but the index is 5" := by
  decide

/-- C1 amended: when an input account paired with an input hash (position
`j` of the zip, all earlier pairs valid) has `merkle_tree_pubkey_index`
out of range of `pubkey_array`, the assembler — and with it the whole
`parse_transaction` — fails by panicking with the index-out-of-bounds
message, not by returning a `MalformedEvent` error. -/
theorem c1_out_of_range_panics :
    (∀ (sig : Signature) (slot : Nat) (ev : PublicTransactionEvent)
        (cls : Changelogs) (j : Nat)
        (p : CompressedAccountWithMerkleContext × Hash32),
      (ev.input_compressed_accounts.zip ev.input_compressed_account_hashes)[j]? =
        some p →
      ev.pubkey_array.length ≤ p.1.merkle_tree_pubkey_index →
      (∀ (k : Nat) (q : CompressedAccountWithMerkleContext × Hash32), k < j →
        (ev.input_compressed_accounts.zip ev.input_compressed_account_hashes)[k]? =
          some q →
        q.1.merkle_tree_pubkey_index < ev.pubkey_array.length) →
      parse_public_transaction_event sig slot ev cls =
        .panicked (indexPanicMsg ev.pubkey_array.length
          p.1.merkle_tree_pubkey_index)) ∧
    (∀ (sig : Signature) (slot : Nat) (a b c : Instruction)
        (rest : List Instruction) (gs : List InstructionGroup)
        (cls : Changelogs) (ev : PublicTransactionEvent) (j : Nat)
        (p : CompressedAccountWithMerkleContext × Hash32),
      isTriggerTriple a b c →
      deserializeChangelogs b.data = .ok cls →
      deserializePublicTransactionEvent c.data = .ok ev →
      (ev.input_compressed_accounts.zip ev.input_compressed_account_hashes)[j]? =
        some p →
      ev.pubkey_array.length ≤ p.1.merkle_tree_pubkey_index →
      (∀ (k : Nat) (q : CompressedAccountWithMerkleContext × Hash32), k < j →
        (ev.input_compressed_accounts.zip ev.input_compressed_account_hashes)[k]? =
          some q →
        q.1.merkle_tree_pubkey_index < ev.pubkey_array.length) →
      parse_transaction
        { signature := sig
          instruction_groups :=
            { outer_instruction := a, inner_instructions := b :: c :: rest } :: gs }
        slot =
        .panicked (indexPanicMsg ev.pubkey_array.length
          p.1.merkle_tree_pubkey_index)) := by
  constructor
  · intro sig slot ev cls j p hp hout hbefore
    exact parse_pte_panicked sig slot ev cls _
      (enrichInputs_panicked slot ev.pubkey_array _ j p hp hout hbefore)
  · intro sig slot a b c rest gs cls ev j p htr hd1 hd2 hp hout hbefore
    refine parse_transaction_head_panicked sig slot a b c rest gs _ htr ?_
    unfold processTrigger
    rw [hd1, hd2]
    exact parse_pte_panicked sig slot ev cls _
      (enrichInputs_panicked slot ev.pubkey_array _ j p hp hout hbefore)

/-- Witness for the amended C1 at the concrete out-of-range event and the
concrete transaction that decodes to it. -/
theorem c1_witness :
    ((badIdxEv.input_compressed_accounts.zip
        badIdxEv.input_compressed_account_hashes)[0]? =
      some ({ compressed_account := [], merkle_tree_pubkey_index := 5 },
        List.replicate 32 4) ∧
     badIdxEv.pubkey_array.length ≤ 5 ∧
     parse_public_transaction_event wSig 5 badIdxEv emptyCls =
       .panicked (indexPanicMsg badIdxEv.pubkey_array.length 5)) ∧
    parse_transaction badIndexTx 5 =
      .panicked (indexPanicMsg badIdxEv.pubkey_array.length 5) := by
  refine ⟨⟨by decide, by decide, ?_⟩, ?_⟩
  · exact c1_out_of_range_panics.1 wSig 5 badIdxEv emptyCls 0
      ({ compressed_account := [], merkle_tree_pubkey_index := 5 },
        List.replicate 32 4)
      (by decide) (by decide)
      (fun k q hk _ => absurd hk (by omega))
  · exact c1_out_of_range_panics.2 wSig 5 acpTriggerInstruction
      (noopInstruction emptyChangelogsBytes) (noopInstruction badIndexEventBytes)
      [] [] emptyCls badIdxEv 0
      ({ compressed_account := [], merkle_tree_pubkey_index := 5 },
        List.replicate 32 4)
      (by decide) rfl rfl (by decide) (by decide)
      (fun k q hk _ => absurd hk (by omega))

/-- Concrete transaction whose changelog payload declares one event with
variant tag 1. -/
def unknownTagTx : TransactionInfo :=
  { signature := wSig
    instruction_groups :=
      [{ outer_instruction := acpTriggerInstruction
         inner_instructions :=
           [noopInstruction ([1,0,0,0] ++ [1,0,0,0]),
            noopInstruction (List.replicate 20 0)] }] }

/-- Counterexample for C8: a changelog event with a variant tag other than
v1 does not decode — the whole transaction aborts with a `ParserError`
instead of contributing zero path updates. -/
theorem c8_counterexample :
    parse_transaction unknownTagTx 5 =
      .err (IngesterError.ParserError
        ("Failed to deserialize Changelogs: " ++
          "Unexpected variant tag for ChangelogEvent")) := by
  decide

/-- C8 amended: the changelog union has only the v1 variant, so a non-zero
variant tag is a decode error, and a transaction whose matched trigger
carries such a payload aborts whole with a `ParserError`; the output-count
check is therefore enforced against the path updates of the decoded
(necessarily v1) events. -/
theorem c8_unknown_tag_aborts :
    (∀ (input r : List Nat) (tag : Nat),
      readU32 input = .ok (tag, r) → tag ≠ 0 →
      readChangelogEvent input =
        .error "Unexpected variant tag for ChangelogEvent") ∧
    (∀ (sig : Signature) (slot : Nat) (a b c : Instruction)
        (rest : List Instruction) (gs : List InstructionGroup),
      isTriggerTriple a b c →
      b.data = [1,0,0,0] ++ [1,0,0,0] →
      parse_transaction
        { signature := sig
          instruction_groups :=
            { outer_instruction := a, inner_instructions := b :: c :: rest } :: gs }
        slot =
        .err (IngesterError.ParserError
          ("Failed to deserialize Changelogs: " ++
            "Unexpected variant tag for ChangelogEvent"))) := by
  constructor
  · intro input r tag h htag
    unfold readChangelogEvent
    rw [h]
    simp only [Bind.bind, Except.bind]
    rw [if_neg htag]
  · intro sig slot a b c rest gs htr hb
    refine parse_transaction_head_err sig slot a b c rest gs _ htr ?_
    refine processTrigger_err_changelogs sig slot b c _ ?_
    rw [hb]
    rfl

/-- Witness for the amended C8 at tag value 1. -/
theorem c8_witness :
    (readU32 [1,0,0,0] = .ok (1, []) ∧
      readChangelogEvent [1,0,0,0] =
        .error "Unexpected variant tag for ChangelogEvent") ∧
    parse_transaction unknownTagTx 5 =
      .err (IngesterError.ParserError
        ("Failed to deserialize Changelogs: " ++
          "Unexpected variant tag for ChangelogEvent")) := by
  refine ⟨⟨rfl, ?_⟩, ?_⟩
  · exact c8_unknown_tag_aborts.1 [1,0,0,0] [] 1 rfl (by decide)
  · exact c8_unknown_tag_aborts.2 wSig 5 acpTriggerInstruction
      (noopInstruction ([1,0,0,0] ++ [1,0,0,0]))
      (noopInstruction (List.replicate 20 0)) [] [] (by decide) rfl

end Photon
